import Mathlib

/-!
Verification of the role-based cooperation workflow in `src/main.ts`: a
LangGraph state machine that sequences a planner, a role assigner, an
executor loop and a reporter over an LLM backend.  The LLM calls, the
query decomposer and the react agent are modelled as oracle functions;
the graph-step and partial-update merge semantics of the StateGraph
framework (external to this repository) are modelled from the spec.
-/

namespace RoleBased

/-- JS `Array.prototype.join(sep)` on a list of strings. -/
def joinSep (sep : String) : List String → String
  | [] => ""
  | [s] => s
  | s :: r :: rest => s ++ sep ++ joinSep sep (r :: rest)

/-- `RoleSchema` (src/main.ts lines 10-14): name, description and key skills.
The zod schema constrains only the types: `keySkills` is `z.array(z.string())`
with no length restriction. -/
structure Role where
  name : String
  description : String
  keySkills : List String
  deriving Repr, DecidableEq

/-- `TaskSchema` (src/main.ts lines 18-21): a description and an *optional*
role (`RoleSchema.optional()`). -/
structure Task where
  description : String
  role : Option Role
  deriving Repr, DecidableEq

/-- `TasksWithRolesSchema` (src/main.ts lines 25-27): the structured-output
schema used by the role assigner. -/
structure TasksWithRoles where
  tasks : List Task
  deriving Repr, DecidableEq

/-- `AgentStateSchema` (src/main.ts lines 31-37). -/
structure AgentState where
  query : String
  tasks : List Task
  currentTaskIndex : Nat
  results : List String
  finalReport : String
  deriving Repr, DecidableEq

/-- The external collaborators, as pure oracles:
`decomposer` — modelled from the spec: `QueryDecomposer` is not in src/;
the spec says it splits a query string into an ordered list of sub-task
description strings.
`assigner` — the LLM + `StructuredOutputParser.fromZodSchema(TasksWithRolesSchema)`
chain of `RoleAssigner.run`, as a function of the human prompt; its result
is by type a schema-valid `TasksWithRoles` and nothing more.
`agent` — the react agent of `Executor.run`, as a function of the system
and human message contents, returning the final message content.
`reportLLM` — the LLM + string parser chain of `Reporter.run`, as a
function of the human prompt. -/
structure Oracles where
  decomposer : String → List String
  assigner : String → TasksWithRoles
  agent : String → String → String
  reportLLM : String → String

/-- `Planner.run` (src/main.ts lines 47-50): decompose the query and wrap
each description into a role-less task. -/
def Planner.run (o : Oracles) (query : String) : List Task :=
  (o.decomposer query).map (fun d => { description := d, role := none })

/-- The human message of `RoleAssigner.run` (src/main.ts lines 65-73), with
`{tasks}` substituted by the newline-joined task descriptions. -/
def roleAssignerHuman (tasks : List Task) : String :=
  "タスク:\n" ++ joinSep "\n" (tasks.map Task.description) ++ "\n\n" ++
  "これらのタスクに対して、以下の指示に従って役割を割り当ててください：\n" ++
  "1. 各タスクに対して、独自の創造的な役割を考案してください。既存の職業名や一般的な役割名にとらわれる必要はありません。\n" ++
  "2. 役割名は、そのタスクの本質を反映した魅力的で記憶に残るものにしてください。\n" ++
  "3. 各役割に対して、その役割がなぜそのタスクに最適なのかを説明する詳細な説明を提供してください。\n" ++
  "4. その役割が効果的にタスクを遂行するために必要な主要なスキルやアトリビュートを3つ挙げてください。\n\n" ++
  "創造性を発揮し、タスクの本質を捉えた革新的な役割を生成してください。"

/-- `RoleAssigner.run` (src/main.ts lines 60-82): build the prompt, invoke
the structured-output chain, and return the parsed `tasks` field verbatim. -/
def RoleAssigner.run (o : Oracles) (tasks : List Task) : List Task :=
  (o.assigner (roleAssignerHuman tasks)).tasks

/-- The system message of `Executor.run` (src/main.ts lines 101-105),
embedding the task's role via the non-null assertions `task.role!`. -/
def executorSystem (r : Role) : String :=
  "あなたは" ++ r.name ++ "です。\n" ++
  "説明: " ++ r.description ++ "\n" ++
  "主要なスキル: " ++ joinSep ", " r.keySkills ++ "\n" ++
  "あなたの役割に基づいて、与えられたタスクを最高の能力で遂行してください。"

/-- The human message of `Executor.run` (src/main.ts line 109). -/
def executorHuman (d : String) : String :=
  "以下のタスクを実行してください：\n\n" ++ d

/-- `Executor.run` (src/main.ts lines 96-115): invoke the react agent with
the persona system message and the task description.  The accesses
`task.role!.name` / `.description` / `.keySkills` throw a TypeError when
`role` is absent; that runtime failure is modelled as `none`. -/
def Executor.run (o : Oracles) (task : Task) : Option String :=
  match task.role with
  | none => none
  | some r => some (o.agent (executorSystem r) (executorHuman task.description))

/-- The label of the i-th (0-based) result in the reporter prompt:
`Info ${i + 1}:\n${result}` (src/main.ts line 147). -/
def infoLine (i : Nat) (r : String) : String :=
  "Info " ++ toString (i + 1) ++ ":\n" ++ r

/-- `results.map((result, i) => ...)` of src/main.ts line 147: label each
result with its 1-based position. -/
def infoLines : Nat → List String → List String
  | _, [] => []
  | i, r :: rest => infoLine i r :: infoLines (i + 1) rest

/-- The fixed text of the reporter's human template (src/main.ts lines
131-139) up to the `{query}` placeholder. -/
def reporterPromptPrefix : String :=
  "タスク: 以下の情報に基づいて、包括的で一貫性のある回答を作成してください。\n" ++
  "要件:\n" ++
  "1. 提供されたすべての情報を統合し、よく構成された回答にしてください。\n" ++
  "2. 回答は元のクエリに直接応える形にしてください。\n" ++
  "3. 各情報の重要なポイントや発見を含めてください。\n" ++
  "4. 最後に結論や要約を提供してください。\n" ++
  "5. 回答は詳細でありながら簡潔にし、250〜300語程度を目指してください。\n" ++
  "6. 回答は日本語で行ってください。\n\n" ++
  "ユーザーの依頼: "

/-- The human message of `Reporter.run` (src/main.ts lines 130-141), with
`{query}` and `{results}` substituted (the latter by the `Info N`-labelled
results joined with blank lines, src/main.ts line 147). -/
def reporterPrompt (query : String) (results : List String) : String :=
  reporterPromptPrefix ++ query ++ "\n\n" ++
  "収集した情報:\n" ++ joinSep "\n\n" (infoLines 0 results)

/-- `Reporter.run` (src/main.ts lines 125-149): one prompt embedding the
query and the labelled results, returned as a raw completion. -/
def Reporter.run (o : Oracles) (query : String) (results : List String) : String :=
  o.reportLLM (reporterPrompt query results)

/-- The nodes of the graph built by `createGraph` (src/main.ts lines
169-190), plus the `END` terminal. -/
inductive Node where
  | planner
  | roleAssigner
  | executor
  | reporter
  | END
  deriving Repr, DecidableEq

/-- A `Partial<AgentState>` as returned by the node functions: each field
either absent or present.  `query` is never part of any node's update. -/
structure StateUpdate where
  tasks : Option (List Task)
  currentTaskIndex : Option Nat
  results : Option (List String)
  finalReport : Option String
  deriving Repr, DecidableEq

/-- Modelled from the spec: the StateGraph partial-update merge (the
framework code is not in src/).  Fields absent from an update are left
unchanged; `results` updates append to the existing list (spec section 9
directs to treat the `results` merge as append, one element per task);
the other fields take the updated value. -/
def applyUpdate (s : AgentState) (u : StateUpdate) : AgentState :=
  { query := s.query
    tasks := u.tasks.getD s.tasks
    currentTaskIndex := u.currentTaskIndex.getD s.currentTaskIndex
    results := s.results ++ u.results.getD []
    finalReport := u.finalReport.getD s.finalReport }

/-- `planTasks` (src/main.ts lines 192-195): update only `tasks`. -/
def planTasks (o : Oracles) (s : AgentState) : StateUpdate :=
  { tasks := some (Planner.run o s.query)
    currentTaskIndex := none
    results := none
    finalReport := none }

/-- `assignRoles` (src/main.ts lines 197-200): update only `tasks`. -/
def assignRoles (o : Oracles) (s : AgentState) : StateUpdate :=
  { tasks := some (RoleAssigner.run o s.tasks)
    currentTaskIndex := none
    results := none
    finalReport := none }

/-- `executeTask` (src/main.ts lines 202-209): run the executor on
`state.tasks[state.currentTaskIndex]` and return a single-element
`results` update together with the incremented index.  When the index is
out of range the task is `undefined` and the executor's `task.role!`
access throws; as with a missing role, that failure is modelled as
`none`. -/
def executeTask (o : Oracles) (s : AgentState) : Option StateUpdate :=
  match s.tasks[s.currentTaskIndex]? with
  | none => none
  | some t =>
    match Executor.run o t with
    | none => none
    | some r =>
      some { tasks := none
             currentTaskIndex := some (s.currentTaskIndex + 1)
             results := some [r]
             finalReport := none }

/-- `generateReport` (src/main.ts lines 211-214): update only
`finalReport`. -/
def generateReport (o : Oracles) (s : AgentState) : StateUpdate :=
  { tasks := none
    currentTaskIndex := none
    results := none
    finalReport := some (Reporter.run o s.query s.results) }

/-- One superstep of the compiled graph (src/main.ts lines 169-190):
run the current node, merge its partial update, and follow the edges —
`planner → roleAssigner` and `roleAssigner → executor` unconditionally,
`executor → executor / reporter` by the conditional edge
`state.currentTaskIndex < state.tasks.length` evaluated on the updated
state, `reporter → END`.  `none` models a node throwing. -/
def stepConfig (o : Oracles) : Node × AgentState → Option (Node × AgentState)
  | (Node.planner, s) => some (Node.roleAssigner, applyUpdate s (planTasks o s))
  | (Node.roleAssigner, s) => some (Node.executor, applyUpdate s (assignRoles o s))
  | (Node.executor, s) =>
    match executeTask o s with
    | none => none
    | some u =>
      let s2 := applyUpdate s u
      some (if s2.currentTaskIndex < s2.tasks.length then Node.executor else Node.reporter, s2)
  | (Node.reporter, s) => some (Node.END, applyUpdate s (generateReport o s))
  | (Node.END, s) => some (Node.END, s)

/-- The initial state of `RoleBasedCooperation.run` (src/main.ts lines
217-223). -/
def initialState (query : String) : AgentState :=
  { query := query
    tasks := []
    currentTaskIndex := 0
    results := []
    finalReport := "" }

/-- The configuration of a run after `n` supersteps, starting at the
`planner` entry point; `none` once a node has thrown. -/
def traceRun (o : Oracles) (query : String) : Nat → Option (Node × AgentState)
  | 0 => some (Node.planner, initialState query)
  | n + 1 => (traceRun o query n).bind (stepConfig o)

/-- How a run ends: a node threw, or the recursion limit was hit. -/
inductive RunError where
  | crash
  | limitExceeded
  deriving Repr, DecidableEq

/-- Modelled from the spec: graph invocation with a recursion limit (the
framework code is not in src/).  Each superstep consumes one unit of
`fuel`; reaching `END` returns the final state; running out of fuel
before `END` is the fatal recursion-limit abort. -/
def runWithLimit (o : Oracles) : Nat → Node × AgentState → Except RunError AgentState
  | _, (Node.END, s) => Except.ok s
  | 0, _ => Except.error RunError.limitExceeded
  | fuel + 1, c =>
    match stepConfig o c with
    | none => Except.error RunError.crash
    | some c2 => runWithLimit o fuel c2

/-- `RoleBasedCooperation.run` (src/main.ts lines 216-226): invoke the
graph on the initial state with `recursionLimit: 1000` and return the
final state's `finalReport`. -/
def RoleBasedCooperation.run (o : Oracles) (query : String) : Except RunError String :=
  Except.map AgentState.finalReport (runWithLimit o 1000 (Node.planner, initialState query))

/-- One completed executor pass: run the node and merge its update. -/
def execStep (o : Oracles) (s : AgentState) : Option AgentState :=
  (executeTask o s).map (applyUpdate s)

/-- `n` completed executor passes in sequence. -/
def iterExec (o : Oracles) : Nat → AgentState → Option AgentState
  | 0, s => some s
  | n + 1, s =>
    match execStep o s with
    | none => none
    | some s2 => iterExec o n s2

/-- The state with which every run first enters the executor node: the
initial state after the planner and role-assigner updates. -/
def entryState (o : Oracles) (query : String) : AgentState :=
  { query := query
    tasks := RoleAssigner.run o (Planner.run o query)
    currentTaskIndex := 0
    results := []
    finalReport := "" }

/-- Deterministic stub collaborators: the decomposer returns `ds` for any
query, the structured-output chain parses to `out` for any prompt, the
react agent echoes its human message, the reporter chain echoes its
prompt. -/
def testOracles (ds : List String) (out : TasksWithRoles) : Oracles :=
  { decomposer := fun _ => ds
    assigner := fun _ => out
    agent := fun _ hum => hum
    reportLLM := fun p => p }

/-- A stub role. -/
def role0 : Role :=
  { name := "R", description := "D", keySkills := ["a", "b", "c"] }

theorem applyUpdate_prelude (o : Oracles) (q : String) :
    applyUpdate (applyUpdate (initialState q) (planTasks o (initialState q)))
      (assignRoles o (applyUpdate (initialState q) (planTasks o (initialState q)))) =
    entryState o q := by
  simp [applyUpdate, planTasks, assignRoles, initialState, entryState]

theorem traceRun_two (o : Oracles) (q : String) :
    traceRun o q 2 = some (Node.executor, entryState o q) := by
  rw [← applyUpdate_prelude o q]
  rfl

theorem runWithLimit_end (o : Oracles) (fuel : Nat) (s : AgentState) :
    runWithLimit o fuel (Node.END, s) = Except.ok s := by
  cases fuel <;> rfl

theorem runWithLimit_planner (o : Oracles) (fuel : Nat) (s : AgentState) :
    runWithLimit o (fuel + 1) (Node.planner, s) =
      runWithLimit o fuel (Node.roleAssigner, applyUpdate s (planTasks o s)) := rfl

theorem runWithLimit_roleAssigner (o : Oracles) (fuel : Nat) (s : AgentState) :
    runWithLimit o (fuel + 1) (Node.roleAssigner, s) =
      runWithLimit o fuel (Node.executor, applyUpdate s (assignRoles o s)) := rfl

theorem runWithLimit_executor (o : Oracles) (fuel : Nat) (s : AgentState) :
    runWithLimit o (fuel + 1) (Node.executor, s) =
      match stepConfig o (Node.executor, s) with
      | none => Except.error RunError.crash
      | some c2 => runWithLimit o fuel c2 := rfl

theorem runWithLimit_reporter (o : Oracles) (fuel : Nat) (s : AgentState) :
    runWithLimit o (fuel + 1) (Node.reporter, s) =
      runWithLimit o fuel (Node.END, applyUpdate s (generateReport o s)) := rfl

theorem runWithLimit_zero (o : Oracles) (n : Node) (s : AgentState) (h : n ≠ Node.END) :
    runWithLimit o 0 (n, s) = Except.error RunError.limitExceeded := by
  cases n <;> first | rfl | exact absurd rfl h

theorem execStep_some (o : Oracles) (s s2 : AgentState) (h : execStep o s = some s2) :
    ∃ t r, s.tasks[s.currentTaskIndex]? = some t ∧
      Executor.run o t = some r ∧
      s2.query = s.query ∧
      s2.tasks = s.tasks ∧
      s2.currentTaskIndex = s.currentTaskIndex + 1 ∧
      s2.results = s.results ++ [r] ∧
      s2.finalReport = s.finalReport ∧
      s.currentTaskIndex < s.tasks.length := by
  unfold execStep executeTask at h
  cases hl : s.tasks[s.currentTaskIndex]? with
  | none => rw [hl] at h; simp at h
  | some t =>
    rw [hl] at h
    cases hr : Executor.run o t with
    | none => simp only [hr] at h; simp at h
    | some r =>
      simp only [hr, Option.map_some', Option.some.injEq] at h
      refine ⟨t, r, rfl, hr, ?_⟩
      rw [← h]
      refine ⟨rfl, rfl, rfl, rfl, rfl, ?_⟩
      exact (List.getElem?_eq_some.mp hl).1

/-- The executor-loop invariant: the index counts the completed passes,
one result per processed task, in task order. -/
def ExecInv (o : Oracles) (s : AgentState) : Prop :=
  s.results.length = s.currentTaskIndex ∧
  s.currentTaskIndex ≤ s.tasks.length ∧
  ∀ i, i < s.currentTaskIndex → Option.bind s.tasks[i]? (Executor.run o) = s.results[i]?

theorem ExecInv.entry (o : Oracles) (q : String) : ExecInv o (entryState o q) :=
  ⟨rfl, Nat.zero_le _, fun i hi => absurd hi (Nat.not_lt_zero i)⟩

theorem ExecInv.step (o : Oracles) (s s2 : AgentState) (hinv : ExecInv o s)
    (h : execStep o s = some s2) : ExecInv o s2 := by
  obtain ⟨t, r, hl, hr, _, ht, hi, hres, _, hb⟩ := execStep_some o s s2 h
  obtain ⟨len_eq, _, content⟩ := hinv
  refine ⟨?_, ?_, ?_⟩
  · rw [hres, hi]; simp [len_eq]
  · rw [hi, ht]; exact hb
  · intro i hlt
    rw [hi] at hlt
    rcases Nat.lt_succ_iff_lt_or_eq.mp hlt with hlt2 | heq
    · rw [ht, hres, List.getElem?_append_left (len_eq ▸ hlt2)]
      exact content i hlt2
    · subst heq
      rw [ht, hres, hl, ← len_eq, List.getElem?_concat_length]
      simp [hr]

theorem iterExec_invariant (o : Oracles) :
    ∀ (N : Nat) (s0 s : AgentState), ExecInv o s0 → iterExec o N s0 = some s →
      ExecInv o s ∧ s.currentTaskIndex = s0.currentTaskIndex + N ∧ s.tasks = s0.tasks
  | 0, s0, s, hinv, h => by
    cases h
    exact ⟨hinv, rfl, rfl⟩
  | N + 1, s0, s, hinv, h => by
    rw [iterExec] at h
    cases hs : execStep o s0 with
    | none => rw [hs] at h; exact absurd h (by simp)
    | some s1 =>
      rw [hs] at h
      obtain ⟨hinv1, hidx1, htasks1⟩ :=
        iterExec_invariant o N s1 s (ExecInv.step o s0 s1 hinv hs) h
      obtain ⟨t, r, _, _, _, ht, hi, _, _, _⟩ := execStep_some o s0 s1 hs
      refine ⟨hinv1, ?_, by rw [htasks1, ht]⟩
      rw [hidx1, hi]
      omega

theorem stepConfig_executor_of_execStep (o : Oracles) (s s2 : AgentState)
    (h : execStep o s = some s2) :
    stepConfig o (Node.executor, s) =
      some (if s2.currentTaskIndex < s2.tasks.length then Node.executor else Node.reporter, s2) := by
  unfold execStep at h
  show (match executeTask o s with
        | none => none
        | some u =>
          let s3 := applyUpdate s u
          some (if s3.currentTaskIndex < s3.tasks.length then Node.executor else Node.reporter, s3)) = _
  cases hu : executeTask o s with
  | none => rw [hu] at h; simp at h
  | some u =>
    rw [hu] at h
    simp only [Option.map_some', Option.some.injEq] at h
    simp only [h]

theorem iterExec_succ_back (o : Oracles) :
    ∀ (N : Nat) (s0 : AgentState),
      iterExec o (N + 1) s0 = (iterExec o N s0).bind (execStep o)
  | 0, s0 => by
    rw [iterExec]
    show (match execStep o s0 with
          | none => none
          | some s2 => iterExec o 0 s2) = execStep o s0
    cases execStep o s0 with
    | none => rfl
    | some s1 => rfl
  | N + 1, s0 => by
    rw [iterExec]
    conv_rhs => rw [iterExec]
    cases execStep o s0 with
    | none => rfl
    | some s1 => exact iterExec_succ_back o N s1

theorem traceRun_exec (o : Oracles) (q : String) :
    ∀ (N : Nat) (s : AgentState), iterExec o (N + 1) (entryState o q) = some s →
      traceRun o q (2 + (N + 1)) =
        some (if s.currentTaskIndex < s.tasks.length then Node.executor else Node.reporter, s)
  | 0, s, h => by
    rw [iterExec_succ_back] at h
    replace h : execStep o (entryState o q) = some s := h
    show (traceRun o q 2).bind (stepConfig o) = _
    rw [traceRun_two]
    exact stepConfig_executor_of_execStep o _ s h
  | N + 1, s, h => by
    rw [iterExec_succ_back] at h
    cases hsN : iterExec o (N + 1) (entryState o q) with
    | none => rw [hsN] at h; simp at h
    | some sN =>
      rw [hsN] at h
      replace h : execStep o sN = some s := h
      have htr := traceRun_exec o q N sN hsN
      obtain ⟨_, _, _, _, _, _, _, _, _, hb⟩ := execStep_some o sN s h
      show (traceRun o q (2 + (N + 1))).bind (stepConfig o) = _
      rw [htr, if_pos hb]
      exact stepConfig_executor_of_execStep o sN s h

theorem run_to_entry (o : Oracles) (q : String) :
    RoleBasedCooperation.run o q =
      Except.map AgentState.finalReport (runWithLimit o 998 (Node.executor, entryState o q)) := by
  show Except.map AgentState.finalReport (runWithLimit o (999 + 1) (Node.planner, initialState q)) = _
  rw [runWithLimit_planner]
  show Except.map AgentState.finalReport (runWithLimit o (998 + 1) (Node.roleAssigner, _)) = _
  rw [runWithLimit_roleAssigner, applyUpdate_prelude]

theorem stepConfig_executor_anatomy (o : Oracles) (s : AgentState) (c2 : Node × AgentState)
    (h : stepConfig o (Node.executor, s) = some c2) :
    execStep o s = some c2.2 ∧
    (c2.1 = Node.reporter ↔ c2.2.currentTaskIndex = c2.2.tasks.length) ∧
    (c2.1 = Node.executor ↔ c2.2.currentTaskIndex < c2.2.tasks.length) ∧
    c2.2.currentTaskIndex = s.currentTaskIndex + 1 ∧
    c2.2.tasks = s.tasks ∧
    (c2.1 = Node.executor ∨ c2.1 = Node.reporter) := by
  have hstep : (match executeTask o s with
      | none => none
      | some u =>
        let s3 := applyUpdate s u
        some (if s3.currentTaskIndex < s3.tasks.length then Node.executor
              else Node.reporter, s3)) = some c2 := h
  cases hu : executeTask o s with
  | none => rw [hu] at hstep; simp at hstep
  | some u =>
    rw [hu] at hstep
    simp only [Option.some.injEq] at hstep
    have hes : execStep o s = some (applyUpdate s u) := by
      unfold execStep
      rw [hu]
      rfl
    obtain ⟨t, r, _, _, _, ht2, hi2, _, _, hb2⟩ := execStep_some o s (applyUpdate s u) hes
    have hle : (applyUpdate s u).currentTaskIndex ≤ (applyUpdate s u).tasks.length := by
      rw [hi2, ht2]
      exact hb2
    subst hstep
    by_cases hc : (applyUpdate s u).currentTaskIndex < (applyUpdate s u).tasks.length
    · rw [if_pos hc]
      refine ⟨hes, ?_, ?_, hi2, ht2, Or.inl rfl⟩
      · constructor
        · intro hx
          exact Node.noConfusion hx
        · intro hx
          exact absurd hx (Nat.ne_of_lt hc)
      · exact ⟨fun _ => hc, fun _ => rfl⟩
    · rw [if_neg hc]
      have heq : (applyUpdate s u).currentTaskIndex = (applyUpdate s u).tasks.length :=
        Nat.le_antisymm hle (Nat.le_of_not_lt hc)
      refine ⟨hes, ?_, ?_, hi2, ht2, Or.inr rfl⟩
      · exact ⟨fun _ => heq, fun _ => rfl⟩
      · constructor
        · intro hx
          exact Node.noConfusion hx
        · intro hx
          exact absurd hx hc

/-- The node-indexed run invariant: before the executor phase the index
is 0 and no results exist; at the executor node the index is bounded by
the task count; from the reporter node on it equals the task count. -/
def Inv : Node × AgentState → Prop
  | (Node.planner, s) => s.currentTaskIndex = 0 ∧ s.results = []
  | (Node.roleAssigner, s) => s.currentTaskIndex = 0 ∧ s.results = []
  | (Node.executor, s) => s.currentTaskIndex ≤ s.tasks.length
  | (Node.reporter, s) => s.currentTaskIndex = s.tasks.length
  | (Node.END, s) => s.currentTaskIndex = s.tasks.length

theorem Inv.preserved (o : Oracles) (c c2 : Node × AgentState)
    (hc : Inv c) (h : stepConfig o c = some c2) : Inv c2 := by
  obtain ⟨n, s⟩ := c
  cases n with
  | planner =>
    simp only [stepConfig, Option.some.injEq] at h
    subst h
    obtain ⟨hi, hr⟩ := hc
    exact ⟨by simp [applyUpdate, planTasks, hi], by simp [applyUpdate, planTasks, hr]⟩
  | roleAssigner =>
    simp only [stepConfig, Option.some.injEq] at h
    subst h
    obtain ⟨hi, _⟩ := hc
    show (applyUpdate s (assignRoles o s)).currentTaskIndex ≤ _
    simp [applyUpdate, assignRoles, hi]
  | executor =>
    obtain ⟨hes, hrep, hexe, _, _, hor⟩ := stepConfig_executor_anatomy o s c2 h
    obtain ⟨n2, s2⟩ := c2
    replace hrep : n2 = Node.reporter ↔ s2.currentTaskIndex = s2.tasks.length := hrep
    replace hexe : n2 = Node.executor ↔ s2.currentTaskIndex < s2.tasks.length := hexe
    replace hor : n2 = Node.executor ∨ n2 = Node.reporter := hor
    rcases hor with h2 | h2 <;> subst h2
    · show s2.currentTaskIndex ≤ s2.tasks.length
      exact Nat.le_of_lt (hexe.mp rfl)
    · show s2.currentTaskIndex = s2.tasks.length
      exact hrep.mp rfl
  | reporter =>
    simp only [stepConfig, Option.some.injEq] at h
    subst h
    show (applyUpdate s (generateReport o s)).currentTaskIndex =
      (applyUpdate s (generateReport o s)).tasks.length
    simpa [applyUpdate, generateReport] using hc
  | END =>
    simp only [stepConfig, Option.some.injEq] at h
    subst h
    exact hc

theorem traceRun_inv (o : Oracles) (q : String) :
    ∀ (n : Nat) (c : Node × AgentState), traceRun o q n = some c → Inv c
  | 0, c, h => by
    cases h
    exact ⟨rfl, rfl⟩
  | n + 1, c, h => by
    rw [traceRun] at h
    cases ht : traceRun o q n with
    | none => rw [ht] at h; simp at h
    | some c1 =>
      rw [ht] at h
      replace h : stepConfig o c1 = some c := h
      exact Inv.preserved o c1 c (traceRun_inv o q n c1 ht) h

theorem Inv.bound (c : Node × AgentState) (hc : Inv c) :
    c.2.currentTaskIndex ≤ c.2.tasks.length := by
  obtain ⟨n, s⟩ := c
  cases n with
  | planner =>
    obtain ⟨h1, _⟩ := hc
    show s.currentTaskIndex ≤ s.tasks.length
    rw [h1]
    exact Nat.zero_le _
  | roleAssigner =>
    obtain ⟨h1, _⟩ := hc
    show s.currentTaskIndex ≤ s.tasks.length
    rw [h1]
    exact Nat.zero_le _
  | executor => exact hc
  | reporter => exact Nat.le_of_eq hc
  | END => exact Nat.le_of_eq hc

theorem stepConfig_index_mono (o : Oracles) (c c2 : Node × AgentState)
    (h : stepConfig o c = some c2) :
    c.2.currentTaskIndex ≤ c2.2.currentTaskIndex := by
  obtain ⟨n, s⟩ := c
  cases n with
  | planner =>
    simp only [stepConfig, Option.some.injEq] at h
    subst h
    simp [applyUpdate, planTasks]
  | roleAssigner =>
    simp only [stepConfig, Option.some.injEq] at h
    subst h
    simp [applyUpdate, assignRoles]
  | executor =>
    obtain ⟨_, _, _, hi2, _, _⟩ := stepConfig_executor_anatomy o s c2 h
    show s.currentTaskIndex ≤ c2.2.currentTaskIndex
    rw [hi2]
    exact Nat.le_succ _
  | reporter =>
    simp only [stepConfig, Option.some.injEq] at h
    subst h
    simp [applyUpdate, generateReport]
  | END =>
    simp only [stepConfig, Option.some.injEq] at h
    subst h
    exact Nat.le_refl _

theorem joinSep_mem_infix (sep : String) :
    ∀ (l : List String) (e : String), e ∈ l →
      ∃ pre post : String, joinSep sep l = pre ++ e ++ post
  | [], e, h => absurd h (List.not_mem_nil e)
  | [s], e, h => by
    rw [List.mem_singleton] at h
    subst h
    exact ⟨"", "", by rw [joinSep, String.empty_append, String.append_empty]⟩
  | s :: r :: rest, e, h => by
    rcases List.mem_cons.mp h with he | he
    · subst he
      refine ⟨"", sep ++ joinSep sep (r :: rest), ?_⟩
      rw [joinSep, String.empty_append, String.append_assoc]
    · obtain ⟨pre, post, hp⟩ := joinSep_mem_infix sep (r :: rest) e he
      refine ⟨s ++ sep ++ pre, post, ?_⟩
      rw [joinSep, hp]
      simp only [String.append_assoc]

theorem infoLines_getElem? : ∀ (j : Nat) (l : List String) (i : Nat),
    (infoLines j l)[i]? = (l[i]?).map (infoLine (j + i))
  | _, [], i => by simp [infoLines]
  | j, r :: rest, 0 => by simp [infoLines]
  | j, r :: rest, i + 1 => by
    rw [show infoLines j (r :: rest) = infoLine j r :: infoLines (j + 1) rest from rfl]
    rw [List.getElem?_cons_succ, List.getElem?_cons_succ]
    rw [infoLines_getElem? (j + 1) rest i]
    rw [show j + 1 + i = j + (i + 1) from by omega]

/-- A concrete task with a role. -/
def task1 : Task := { description := "t1", role := some role0 }

/-- A second concrete task with a role. -/
def task2 : Task := { description := "t2", role := some role0 }

/-- Stub collaborators producing two role-bearing tasks. -/
def oracleTwo : Oracles := testOracles ["t1", "t2"] { tasks := [task1, task2] }

/-- Stub collaborators producing an empty task list everywhere. -/
def oracleEmpty : Oracles := testOracles [] { tasks := [] }

/-- Stub collaborators whose structured output drops the role. -/
def oracleNoRole : Oracles :=
  testOracles ["t"] { tasks := [{ description := "t", role := none }] }

/-- Stub collaborators producing 998 role-bearing tasks. -/
def oracleMany : Oracles := testOracles ["t"] { tasks := List.replicate 998 task1 }

/-- The state after the role-assigner stage under `oracleNoRole`. -/
def stateNoRole : AgentState :=
  { query := "q"
    tasks := [{ description := "t", role := none }]
    currentTaskIndex := 0
    results := []
    finalReport := "" }

/-- The state after two executor passes under `oracleTwo`. -/
def stateAfterTwo : AgentState :=
  { query := "q"
    tasks := [task1, task2]
    currentTaskIndex := 2
    results := [executorHuman "t1", executorHuman "t2"]
    finalReport := "" }

/-- The state after one executor pass under `oracleTwo`. -/
def stateAfterOne : AgentState :=
  { query := "q"
    tasks := [task1, task2]
    currentTaskIndex := 1
    results := [executorHuman "t1"]
    finalReport := "" }

/-- The partial update of the first executor pass under `oracleTwo`. -/
def updateOne : StateUpdate :=
  { tasks := none
    currentTaskIndex := some 1
    results := some [executorHuman "t1"]
    finalReport := none }

/-- C1: in every run, after N completed passes through the executor node
(from the executor entry state, which every run reaches at superstep 2
with index 0 and no results), `currentTaskIndex = N` and
`results.length = N` with N at most `tasks.length`; result i is the
executor's output for task i — one result per task, in task order — and
any further completed pass appends exactly one result, the one for the
task at the pre-step index N. -/
theorem executor_loop_invariant (o : Oracles) (query : String) (N : Nat) (s : AgentState)
    (h : iterExec o N (entryState o query) = some s) :
    traceRun o query 2 = some (Node.executor, entryState o query) ∧
    s.currentTaskIndex = N ∧
    s.results.length = N ∧
    N ≤ s.tasks.length ∧
    (∀ i, i < N → Option.bind s.tasks[i]? (Executor.run o) = s.results[i]?) ∧
    (∀ s2, execStep o s = some s2 →
      ∃ t r, s.tasks[N]? = some t ∧ Executor.run o t = some r ∧
        s2.results = s.results ++ [r]) := by
  obtain ⟨hinv, hidx, _⟩ :=
    iterExec_invariant o N (entryState o query) s (ExecInv.entry o query) h
  obtain ⟨hlen, hbound, hcontent⟩ := hinv
  have hN : s.currentTaskIndex = N := by
    rw [hidx]
    show 0 + N = N
    omega
  refine ⟨traceRun_two o query, hN, ?_, ?_, ?_, ?_⟩
  · rw [hlen, hN]
  · rw [← hN]
    exact hbound
  · intro i hi
    rw [← hN] at hi
    exact hcontent i hi
  · intro s2 hs2
    obtain ⟨t, r, hl, hr, _, _, _, hres, _, _⟩ := execStep_some o s s2 hs2
    rw [hN] at hl
    exact ⟨t, r, hl, hr, hres⟩

/-- C1 witness: two stub tasks, two executor passes. -/
theorem executor_loop_invariant_witness :
    stateAfterTwo.currentTaskIndex = 2 ∧ stateAfterTwo.results.length = 2 :=
  ⟨(executor_loop_invariant oracleTwo "q" 2 stateAfterTwo (by decide)).2.1,
   (executor_loop_invariant oracleTwo "q" 2 stateAfterTwo (by decide)).2.2.1⟩

theorem traceRun_stuck (o : Oracles) (q : String) (m : Nat) (hm : traceRun o q m = none) :
    ∀ n, m ≤ n → traceRun o q n = none := by
  intro n
  induction n with
  | zero =>
    intro hn
    rw [← Nat.le_zero.mp hn]
    exact hm
  | succ k ih =>
    intro hn
    by_cases hmk : m ≤ k
    · rw [traceRun, ih hmk]
      rfl
    · rw [show m = k + 1 from by omega] at hm
      exact hm

/-- C2 counterexample: with a decomposer returning an empty task list the
executor node is entered at superstep 2 — the `roleAssigner → executor`
edge is unconditional — and its pass throws on the missing task at index
0, so the run aborts instead of proceeding to the reporter. -/
theorem empty_tasks_executor_entered :
    traceRun oracleEmpty "q" 2 = some (Node.executor, entryState oracleEmpty "q") ∧
    stepConfig oracleEmpty (Node.executor, entryState oracleEmpty "q") = none ∧
    RoleBasedCooperation.run oracleEmpty "q" = Except.error RunError.crash := by
  refine ⟨traceRun_two oracleEmpty "q", by decide, ?_⟩
  rw [run_to_entry]
  rw [show (998 : Nat) = 997 + 1 from rfl, runWithLimit_executor]
  rw [show stepConfig oracleEmpty (Node.executor, entryState oracleEmpty "q") = none
    from by decide]
  rfl

/-- C2 (amended): when the decomposer returns an empty task list (and the
role assigner, given no tasks, also parses to an empty list), the executor
node is still entered exactly once; that pass fails on the missing task at
index 0, the run aborts with an error and no report, and the reporter node
is never reached. -/
theorem empty_tasks_run_crashes (o : Oracles) (query : String)
    (h1 : o.decomposer query = [])
    (h2 : (o.assigner (roleAssignerHuman [])).tasks = []) :
    traceRun o query 2 = some (Node.executor, entryState o query) ∧
    (entryState o query).tasks = [] ∧
    stepConfig o (Node.executor, entryState o query) = none ∧
    RoleBasedCooperation.run o query = Except.error RunError.crash ∧
    (∀ n c, traceRun o query n = some c → c.1 ≠ Node.reporter) := by
  have htasks : (entryState o query).tasks = [] := by
    show (o.assigner (roleAssignerHuman (Planner.run o query))).tasks = []
    rw [Planner.run, h1]
    exact h2
  have hstep : stepConfig o (Node.executor, entryState o query) = none := by
    show (match executeTask o (entryState o query) with
          | none => none
          | some u =>
            let s3 := applyUpdate (entryState o query) u
            some (if s3.currentTaskIndex < s3.tasks.length then Node.executor
                  else Node.reporter, s3)) = none
    rw [show executeTask o (entryState o query) = none from by
      unfold executeTask
      rw [show (entryState o query).tasks[(entryState o query).currentTaskIndex]? = none from by
        rw [htasks]
        rfl]]
  have h3 : traceRun o query 3 = none := by
    rw [traceRun, traceRun_two]
    exact hstep
  refine ⟨traceRun_two o query, htasks, hstep, ?_, ?_⟩
  · rw [run_to_entry]
    rw [show (998 : Nat) = 997 + 1 from rfl, runWithLimit_executor, hstep]
    rfl
  · intro n c hc
    by_cases hn3 : 3 ≤ n
    · rw [traceRun_stuck o query 3 h3 n hn3] at hc
      exact absurd hc (by simp)
    · have hlt : n < 3 := by omega
      match n, hlt with
      | 0, _ =>
        cases hc
        simp
      | 1, _ =>
        replace hc : some (Node.roleAssigner,
            applyUpdate (initialState query) (planTasks o (initialState query))) = some c := hc
        cases hc
        simp
      | 2, _ =>
        rw [traceRun_two] at hc
        cases hc
        simp

/-- C2 amended-theorem witness: the concrete empty-decomposition stub. -/
theorem empty_tasks_run_crashes_witness :
    (entryState oracleEmpty "w").tasks = [] ∧
    RoleBasedCooperation.run oracleEmpty "w" = Except.error RunError.crash :=
  ⟨(empty_tasks_run_crashes oracleEmpty "w" rfl rfl).2.1,
   (empty_tasks_run_crashes oracleEmpty "w" rfl rfl).2.2.2.1⟩

/-- C3 counterexample: with the non-empty input task list `["t"]`, the
structured output consisting of one task without a role is schema-valid
(the schema leaves `role` optional and `keySkills` unconstrained), and
after the role-assigner stage the state holds that roleless task — not
every task has a non-null role with exactly 3 key skills. -/
theorem roleAssigner_missing_role_passes :
    traceRun oracleNoRole "q" 2 = some (Node.executor, stateNoRole) ∧
    ¬ (∀ t, t ∈ stateNoRole.tasks → ∃ r, t.role = some r ∧ r.keySkills.length = 3) := by
  constructor
  · decide
  · intro hall
    obtain ⟨r, hr, _⟩ :=
      hall { description := "t", role := none } (List.mem_singleton.mpr rfl)
    exact Option.noConfusion hr

/-- C3 (amended): after the role-assigner stage the state's task list is
exactly the schema-parsed structured output, whatever it contains; the
schema types `role` as optional and `keySkills` as an arbitrary string
list, so a non-null role with exactly 3 skills is requested only by the
prompt text, not enforced at the schema level. -/
theorem roleAssigner_stage_verbatim (o : Oracles) (query : String) (c : Node × AgentState)
    (h : traceRun o query 2 = some c) :
    c.1 = Node.executor ∧
    c.2.tasks = (o.assigner (roleAssignerHuman (Planner.run o query))).tasks := by
  rw [traceRun_two] at h
  cases h
  exact ⟨rfl, rfl⟩

/-- C3 amended-theorem witness. -/
theorem roleAssigner_stage_verbatim_witness :
    ((Node.executor, entryState oracleNoRole "q") : Node × AgentState).1 = Node.executor ∧
    ((Node.executor, entryState oracleNoRole "q") : Node × AgentState).2.tasks =
      (oracleNoRole.assigner (roleAssignerHuman (Planner.run oracleNoRole "q"))).tasks :=
  roleAssigner_stage_verbatim oracleNoRole "q" (Node.executor, entryState oracleNoRole "q")
    (traceRun_two oracleNoRole "q")

/-- C4: a completed executor pass transitions to the reporter node iff the
updated `currentTaskIndex` equals `tasks.length`, and loops back to the
executor node iff it is still strictly below it — never to the reporter
early, never a further pass once the index has reached the task count. -/
theorem executor_transition_iff (o : Oracles) (s : AgentState)
    (c2 : Node × AgentState) (h : stepConfig o (Node.executor, s) = some c2) :
    (c2.1 = Node.reporter ↔ c2.2.currentTaskIndex = c2.2.tasks.length) ∧
    (c2.1 = Node.executor ↔ c2.2.currentTaskIndex < c2.2.tasks.length) :=
  ⟨(stepConfig_executor_anatomy o s c2 h).2.1,
   (stepConfig_executor_anatomy o s c2 h).2.2.1⟩

/-- C4 witness: the first pass under `oracleTwo` loops back. -/
theorem executor_transition_iff_witness :
    ((Node.executor : Node) = Node.reporter ↔
      stateAfterOne.currentTaskIndex = stateAfterOne.tasks.length) ∧
    ((Node.executor : Node) = Node.executor ↔
      stateAfterOne.currentTaskIndex < stateAfterOne.tasks.length) :=
  executor_transition_iff oracleTwo (entryState oracleTwo "q")
    (Node.executor, stateAfterOne) (by decide)

/-- C5: along every run's trace, `currentTaskIndex` is bounded above by
`tasks.length`, every step keeps it or increases it (monotone
non-decreasing), and from the executor node the loop exits to the
reporter exactly when the index equals the task count. -/
theorem index_monotone_bounded (o : Oracles) (query : String) (n : Nat)
    (c : Node × AgentState) (h : traceRun o query n = some c) :
    c.2.currentTaskIndex ≤ c.2.tasks.length ∧
    (∀ c2, stepConfig o c = some c2 → c.2.currentTaskIndex ≤ c2.2.currentTaskIndex) ∧
    (∀ s c2, c = (Node.executor, s) → stepConfig o c = some c2 →
      (c2.1 = Node.reporter ↔ c2.2.currentTaskIndex = c2.2.tasks.length)) := by
  refine ⟨Inv.bound c (traceRun_inv o query n c h), ?_, ?_⟩
  · intro c2 h2
    exact stepConfig_index_mono o c c2 h2
  · intro s c2 hcs h2
    subst hcs
    exact (stepConfig_executor_anatomy o s c2 h2).2.1

/-- C5 witness: the executor entry configuration of the two-task run. -/
theorem index_monotone_bounded_witness :
    (entryState oracleTwo "q").currentTaskIndex ≤ (entryState oracleTwo "q").tasks.length :=
  (index_monotone_bounded oracleTwo "q" 2 (Node.executor, entryState oracleTwo "q")
    (traceRun_two oracleTwo "q")).1

theorem executeTask_some_shape (o : Oracles) (s : AgentState) (u : StateUpdate)
    (h : executeTask o s = some u) : u.tasks = none ∧ u.finalReport = none := by
  unfold executeTask at h
  cases hl : s.tasks[s.currentTaskIndex]? with
  | none => rw [hl] at h; exact absurd h (by simp)
  | some t =>
    rw [hl] at h
    cases hr : Executor.run o t with
    | none =>
      simp only [hr] at h
      exact absurd h (by simp)
    | some r =>
      simp only [hr, Option.some.injEq] at h
      rw [← h]
      exact ⟨rfl, rfl⟩

/-- C6: `RoleAssigner.run` trusts the structured output verbatim: it
returns exactly the `tasks` field of the parsed output, with no
enforcement or re-alignment against the input; whatever the chain parses
— of any length or order — is returned unchanged as the new task list. -/
theorem roleAssigner_trusts_output (o : Oracles) (tasks : List Task) :
    RoleAssigner.run o tasks = (o.assigner (roleAssignerHuman tasks)).tasks ∧
    ∀ out : TasksWithRoles,
      RoleAssigner.run { o with assigner := fun _ => out } tasks = out.tasks :=
  ⟨rfl, fun _ => rfl⟩

/-- C7: `Executor.run` presupposes a populated role: when `task.role` is
present, the non-null accesses succeed and the call returns the agent's
answer for the persona system message and the task's human message; when
the role is absent there is no guard and the call fails. -/
theorem executor_role_precondition (o : Oracles) (task : Task) :
    (∀ r, task.role = some r →
      Executor.run o task =
        some (o.agent (executorSystem r) (executorHuman task.description))) ∧
    (task.role = none → Executor.run o task = none) := by
  constructor
  · intro r hr
    unfold Executor.run
    rw [hr]
  · intro hr
    unfold Executor.run
    rw [hr]

/-- C7 witness: a role-bearing task succeeds, a roleless task fails. -/
theorem executor_role_precondition_witness :
    Executor.run oracleTwo task1 =
      some (oracleTwo.agent (executorSystem role0) (executorHuman "t1")) ∧
    Executor.run oracleTwo { description := "t", role := none } = none :=
  ⟨(executor_role_precondition oracleTwo task1).1 role0 rfl,
   (executor_role_precondition oracleTwo { description := "t", role := none }).2 rfl⟩

/-- C8: the reporter's single prompt embeds the query, and embeds every
result: the result at 0-based position i appears labelled
`Info (i+1)` — 1-based, in task order. -/
theorem reporter_prompt_labels (query : String) (results : List String)
    (i : Nat) (h : i < results.length) :
    (∃ p q, reporterPrompt query results = p ++ query ++ q) ∧
    (∃ pre post, reporterPrompt query results =
      pre ++ ("Info " ++ toString (i + 1) ++ ":\n" ++ results.get ⟨i, h⟩) ++ post) := by
  constructor
  · refine ⟨reporterPromptPrefix,
      "\n\n" ++ ("収集した情報:\n" ++ joinSep "\n\n" (infoLines 0 results)), ?_⟩
    rw [reporterPrompt]
    simp only [String.append_assoc]
  · have h1 : (infoLines 0 results)[i]? = some (infoLine i (results.get ⟨i, h⟩)) := by
      rw [infoLines_getElem? 0 results i, Nat.zero_add, List.getElem?_eq_getElem h]
      rw [Option.map_some', List.get_eq_getElem]
    obtain ⟨hlt, he⟩ := List.getElem?_eq_some.mp h1
    have hmem : infoLine i (results.get ⟨i, h⟩) ∈ infoLines 0 results :=
      he ▸ List.getElem_mem hlt
    obtain ⟨pre, post, hp⟩ := joinSep_mem_infix "\n\n" (infoLines 0 results) _ hmem
    refine ⟨reporterPromptPrefix ++ query ++ "\n\n" ++ "収集した情報:\n" ++ pre, post, ?_⟩
    rw [reporterPrompt, hp]
    simp only [infoLine, String.append_assoc]

/-- C8 witness: two results, second labelled `Info 2`. -/
theorem reporter_prompt_labels_witness :
    (∃ p q, reporterPrompt "q" ["a", "b"] = p ++ "q" ++ q) ∧
    (∃ pre post, reporterPrompt "q" ["a", "b"] =
      pre ++ ("Info " ++ toString (1 + 1) ++ ":\n" ++
        (["a", "b"] : List String).get ⟨1, by decide⟩) ++ post) :=
  reporter_prompt_labels "q" ["a", "b"] 1 (by decide)

/-- C9: each node returns a partial update and unmentioned fields persist
through the merge: the planner and role-assigner updates leave `query`,
`currentTaskIndex`, `results` and `finalReport` unchanged; the executor
update leaves `query`, `tasks` and `finalReport` unchanged; the reporter
update leaves everything but `finalReport` unchanged; in general any
field absent from an update is unchanged. -/
theorem node_frame_conditions (o : Oracles) (s : AgentState) :
    ((applyUpdate s (planTasks o s)).query = s.query ∧
     (applyUpdate s (planTasks o s)).currentTaskIndex = s.currentTaskIndex ∧
     (applyUpdate s (planTasks o s)).results = s.results ∧
     (applyUpdate s (planTasks o s)).finalReport = s.finalReport) ∧
    ((applyUpdate s (assignRoles o s)).query = s.query ∧
     (applyUpdate s (assignRoles o s)).currentTaskIndex = s.currentTaskIndex ∧
     (applyUpdate s (assignRoles o s)).results = s.results ∧
     (applyUpdate s (assignRoles o s)).finalReport = s.finalReport) ∧
    (∀ u, executeTask o s = some u →
      (applyUpdate s u).query = s.query ∧
      (applyUpdate s u).tasks = s.tasks ∧
      (applyUpdate s u).finalReport = s.finalReport) ∧
    ((applyUpdate s (generateReport o s)).query = s.query ∧
     (applyUpdate s (generateReport o s)).tasks = s.tasks ∧
     (applyUpdate s (generateReport o s)).currentTaskIndex = s.currentTaskIndex ∧
     (applyUpdate s (generateReport o s)).results = s.results) ∧
    (∀ u : StateUpdate,
      (u.tasks = none → (applyUpdate s u).tasks = s.tasks) ∧
      (u.currentTaskIndex = none →
        (applyUpdate s u).currentTaskIndex = s.currentTaskIndex) ∧
      (u.results = none → (applyUpdate s u).results = s.results) ∧
      (u.finalReport = none → (applyUpdate s u).finalReport = s.finalReport)) := by
  refine ⟨?_, ?_, ?_, ?_, ?_⟩
  · exact ⟨rfl, rfl, by simp [applyUpdate, planTasks], rfl⟩
  · exact ⟨rfl, rfl, by simp [applyUpdate, assignRoles], rfl⟩
  · intro u hu
    obtain ⟨ht, hf⟩ := executeTask_some_shape o s u hu
    exact ⟨rfl, by simp [applyUpdate, ht], by simp [applyUpdate, hf]⟩
  · exact ⟨rfl, rfl, rfl, by simp [applyUpdate, generateReport]⟩
  · intro u
    refine ⟨?_, ?_, ?_, ?_⟩
    · intro hu
      simp [applyUpdate, hu]
    · intro hu
      simp [applyUpdate, hu]
    · intro hu
      simp [applyUpdate, hu]
    · intro hu
      simp [applyUpdate, hu]

/-- C9 witness: the first executor pass of the two-task run. -/
theorem node_frame_conditions_witness :
    ((applyUpdate (entryState oracleTwo "q") updateOne).query =
        (entryState oracleTwo "q").query ∧
     (applyUpdate (entryState oracleTwo "q") updateOne).tasks =
        (entryState oracleTwo "q").tasks ∧
     (applyUpdate (entryState oracleTwo "q") updateOne).finalReport =
        (entryState oracleTwo "q").finalReport) ∧
    (applyUpdate (entryState oracleTwo "q") updateOne).tasks =
      (entryState oracleTwo "q").tasks :=
  ⟨(node_frame_conditions oracleTwo (entryState oracleTwo "q")).2.2.1 updateOne (by decide),
   ((node_frame_conditions oracleTwo (entryState oracleTwo "q")).2.2.2.2 updateOne).1 rfl⟩

theorem runWithLimit_exec_exhausts (o : Oracles) :
    ∀ (fuel : Nat) (s : AgentState),
      (∀ t ∈ s.tasks, (t.role).isSome) →
      fuel ≤ s.tasks.length - s.currentTaskIndex →
      runWithLimit o fuel (Node.executor, s) = Except.error RunError.limitExceeded
  | 0, s, _, _ => runWithLimit_zero o Node.executor s (fun hx => Node.noConfusion hx)
  | fuel + 1, s, hroles, hfuel => by
    have hidx : s.currentTaskIndex < s.tasks.length := by omega
    have hl : s.tasks[s.currentTaskIndex]? = some (s.tasks[s.currentTaskIndex]) :=
      List.getElem?_eq_getElem hidx
    obtain ⟨r, hr⟩ := Option.isSome_iff_exists.mp
      (hroles (s.tasks[s.currentTaskIndex]) (List.getElem_mem hidx))
    have hexec : Executor.run o (s.tasks[s.currentTaskIndex]) =
        some (o.agent (executorSystem r)
          (executorHuman (s.tasks[s.currentTaskIndex]).description)) := by
      unfold Executor.run
      rw [hr]
    have hu : executeTask o s = some
        { tasks := none
          currentTaskIndex := some (s.currentTaskIndex + 1)
          results := some [o.agent (executorSystem r)
            (executorHuman (s.tasks[s.currentTaskIndex]).description)]
          finalReport := none } := by
      unfold executeTask
      rw [hl]
      show (match Executor.run o (s.tasks[s.currentTaskIndex]) with
            | none => none
            | some r2 =>
              some ({ tasks := none
                      currentTaskIndex := some (s.currentTaskIndex + 1)
                      results := some [r2]
                      finalReport := none } : StateUpdate)) = _
      rw [hexec]
    have hstep : execStep o s = some (applyUpdate s
        { tasks := none
          currentTaskIndex := some (s.currentTaskIndex + 1)
          results := some [o.agent (executorSystem r)
            (executorHuman (s.tasks[s.currentTaskIndex]).description)]
          finalReport := none }) := by
      unfold execStep
      rw [hu]
      rfl
    rw [runWithLimit_executor, stepConfig_executor_of_execStep o s _ hstep]
    set s2 := applyUpdate s
        { tasks := none
          currentTaskIndex := some (s.currentTaskIndex + 1)
          results := some [o.agent (executorSystem r)
            (executorHuman (s.tasks[s.currentTaskIndex]).description)]
          finalReport := none } with hs2
    have hi2 : s2.currentTaskIndex = s.currentTaskIndex + 1 := rfl
    have ht2 : s2.tasks = s.tasks := rfl
    have hlen2 : s2.tasks.length = s.tasks.length := by rw [ht2]
    by_cases hc : s2.currentTaskIndex < s2.tasks.length
    · rw [if_pos hc]
      exact runWithLimit_exec_exhausts o fuel s2
        (by rw [ht2]; exact hroles) (by omega)
    · rw [if_neg hc]
      have hfz : fuel = 0 := by omega
      rw [hfz]
      exact runWithLimit_zero o Node.reporter s2 (fun hx => Node.noConfusion hx)

/-- C10: every run is bounded by the hard recursion limit of 1000
supersteps set by `RoleBasedCooperation.run`; a run whose transition
count `tasks.length + 3` (planner, role assigner, one pass per task,
reporter) would exceed the cap aborts with the fatal recursion-limit
error — the reporter never executes and no report is returned. -/
theorem recursion_limit_abort (o : Oracles) (query : String)
    (hroles : ∀ t ∈ (entryState o query).tasks, (t.role).isSome)
    (hcap : 1000 < (entryState o query).tasks.length + 3) :
    RoleBasedCooperation.run o query = Except.error RunError.limitExceeded := by
  rw [run_to_entry]
  rw [runWithLimit_exec_exhausts o 998 (entryState o query) hroles (by
    have h0 : (entryState o query).currentTaskIndex = 0 := rfl
    omega)]
  rfl

/-- C10 witness: 998 tasks need 1001 supersteps and abort. -/
theorem recursion_limit_abort_witness :
    RoleBasedCooperation.run oracleMany "q" = Except.error RunError.limitExceeded :=
  recursion_limit_abort oracleMany "q"
    (by
      intro t ht
      rw [show (entryState oracleMany "q").tasks = List.replicate 998 task1 from rfl] at ht
      rw [List.eq_of_mem_replicate ht]
      rfl)
    (by
      rw [show (entryState oracleMany "q").tasks = List.replicate 998 task1 from rfl]
      rw [List.length_replicate]
      omega)

end RoleBased
